import Mathlib

/-!
Verification of the go-mp-server connection/message lifecycle engine.

The Go sources are shallowly embedded: connections and streams are opaque
`Nat` handles, the `sync.Map` client registry is an association list with
Go `Store`/`Delete`/`Load` semantics, fallible external operations
(address resolution, UDP bind, QUIC listen, stream open/write, codec
encode/decode) are modelled as `Option`/`Bool` parameters, and the
side effects a function performs (opening streams, writing bytes,
spawning goroutines via `go`, invoking application callbacks) are made
explicit as a returned list of `Eff` events in program order.
-/

namespace GoMP

/-- Message envelope, from `Message` in `src/pkg/server/server.go` and
`src/unnamed/part_004`: a type discriminator plus a raw payload.  The
payload bytes are modelled as a `String`. -/
structure Msg where
  type : String
  data : String
  deriving DecidableEq, Repr

/-- One observable effect performed by an engine function, in program
order.  `spawn` is a `go` statement launching a new task;
`invokeOnMsg` / `invokeOnConn` / `invokeOnDisc` mark an application
callback invocation beginning; `unregister` is the registry delete in a
connection teardown; the rest are transport operations. -/
inductive Eff where
  | encode
  | openStream (connId : Nat)
  | write (connId : Nat) (data : String)
  | closeStream (streamId : Nat)
  | spawn (taskId : Nat)
  | invokeOnMsg (connId : Nat) (m : Msg)
  | invokeOnConn (connId : Nat)
  | invokeOnDisc (connId : Nat)
  | unregister (connId : Nat)
  deriving DecidableEq, Repr

/-! ### The client registry: the `conns sync.Map` field of `Server`

`sync.Map.Store` sets the value for a key (replacing any previous
value), `Delete` removes it, `Load` reads it.  The registry is an
association list from connection handle to the application-typed client
value `T` (the `T` of `Server[T, M]`). -/

/-- Model of `sync.Map.Store`: set the value for a key, replacing the previous
value if the key is already present. -/
def syncMapStore {T : Type} (m : List (Nat × T)) (k : Nat) (v : T) : List (Nat × T) :=
  match m with
  | [] => [(k, v)]
  | (k₀, v₀) :: rest =>
    if k₀ = k then (k, v) :: rest else (k₀, v₀) :: syncMapStore rest k v

/-- Model of `sync.Map.Delete`: remove the entry for a key. -/
def syncMapDelete {T : Type} (m : List (Nat × T)) (k : Nat) : List (Nat × T) :=
  m.filter (fun e => e.1 ≠ k)

/-- Model of `sync.Map.Load`: read the value stored for a key. -/
def syncMapLoad {T : Type} (m : List (Nat × T)) (k : Nat) : Option T :=
  match m with
  | [] => none
  | (k₀, v₀) :: rest => if k₀ = k then some v₀ else syncMapLoad rest k

/-- The registration step of `Server.handleConnection`
(`src/unnamed/part_004` line 162): `s.conns.Store(conn, c)`.  It is a
total operation: the code performs no presence check and can signal no
error. -/
def registerClient {T : Type} (reg : List (Nat × T)) (conn : Nat) (c : T) :
    List (Nat × T) :=
  syncMapStore reg conn c

/-! ### The default client: `Client` in `src/unnamed/part_002`

`Meta map[string]interface{}` is a Go map that may be `nil`; it is
modelled as `Option` of an association list (with `none` for `nil`), the
values being opaque (`V`).  Go map assignment `m[k] = v` overwrites any
existing binding. -/

/-- Go map assignment `m[k] = v`: overwrite the binding for `k`, or
append one. -/
def goMapAssign {V : Type} (m : List (String × V)) (k : String) (v : V) :
    List (String × V) :=
  match m with
  | [] => [(k, v)]
  | (k₀, v₀) :: rest =>
    if k₀ = k then (k, v) :: rest else (k₀, v₀) :: goMapAssign rest k v

/-- Go map read `m[k]` (also used for the `clients map[string]*Client`
registry of the `NewServer` variant). -/
def goMapLookup {V : Type} (m : List (String × V)) (k : String) : Option V :=
  match m with
  | [] => none
  | (k₀, v₀) :: rest => if k₀ = k then some v₀ else goMapLookup rest k

/-- Structure `Client` from `src/unnamed/part_002`: ID, connection reference, and
metadata map (`none` models a `nil` map). -/
structure Client (V : Type) where
  ID : String
  Conn : Nat
  Meta : Option (List (String × V))
  deriving DecidableEq, Repr

/-- Function `NewClient(conn)` from `src/unnamed/part_002` lines 40–46: empty ID,
the given connection, freshly allocated (non-nil, empty) metadata map. -/
def NewClient (V : Type) (conn : Nat) : Client V :=
  { ID := "", Conn := conn, Meta := some [] }

/-- Method `Client.SetMeta` from `src/unnamed/part_002` lines 33–38: allocate
the map when it is `nil`, then assign. -/
def Client.SetMeta {V : Type} (c : Client V) (key : String) (value : V) : Client V :=
  match c.Meta with
  | none => { c with Meta := some (goMapAssign [] key value) }
  | some m => { c with Meta := some (goMapAssign m key value) }

/-- Method `Client.GetMeta` from `src/unnamed/part_002` lines 25–27. -/
def Client.GetMeta {V : Type} (c : Client V) : Option (List (String × V)) :=
  c.Meta

/-! ### Broadcast fan-out: `Server.Broadcast` in `src/unnamed/part_004`
lines 205–226 (identical logic in `src/pkg/server/server.go` 175–196)

```go
func (s *Server[T, M]) Broadcast(msg *Message) {
    data, err := json.Marshal(msg)
    if err != nil { log; return }
    s.conns.Range(func(key, value interface{}) bool {
        conn := key.(*Conn)
        str, err := conn.OpenStream()
        if err != nil { log; return true }
        _, err = str.Write(data)
        if err != nil { log }
        str.Close()
        return true
    })
}
```

The registry entry for a connection carries the outcome of its own
transport operations (`openOk`: does `OpenStream` succeed; `writeOk`:
does `Write` succeed).  `json.Marshal` is an abstract fallible codec
`encode : Msg → Option String`.  The returned `List Eff` is every effect
the call performs, in order, before it returns; there is no `go`
statement in `Broadcast`, so no `Eff.spawn` is ever emitted by it. -/

/-- Per-connection transport behaviour for an attempted delivery. -/
structure ConnBehavior where
  openOk : Bool
  writeOk : Bool
  deriving DecidableEq, Repr

/-- The body of the `Range` callback in `Broadcast`, for one registry
entry: open a stream (giving up on this one entry if that fails), write
the encoded bytes, close the stream.  Returns the effects performed and
the `bool` the callback returns to `Range` (always `true`: keep
iterating). -/
def broadcastBody (data : String) (e : Nat × ConnBehavior) : List Eff × Bool :=
  if e.2.openOk then
    ([Eff.openStream e.1, Eff.write e.1 data, Eff.closeStream e.1], true)
  else
    ([Eff.openStream e.1], true)

/-- Model of `sync.Map.Range`: iterate entries, stopping early when the callback
returns `false`. -/
def syncMapRange {T : Type} (f : Nat × T → List Eff × Bool) :
    List (Nat × T) → List Eff
  | [] => []
  | e :: rest =>
    let r := f e
    r.1 ++ (if r.2 then syncMapRange f rest else [])

/-- Function `Server.Broadcast` (`src/unnamed/part_004` lines 205–226): encode
once; on encode failure return at once; otherwise iterate the registry,
attempting one delivery per entry. -/
def Broadcast {T : Type} (encode : Msg → Option String) (msg : Msg)
    (conns : List (Nat × (T × ConnBehavior))) : List Eff :=
  Eff.encode ::
    match encode msg with
    | none => []
    | some data => syncMapRange (fun e => broadcastBody data (e.1, e.2.2)) conns

/-- The delivery attempts of an effect trace: the stream opens. -/
def openAttempts (effs : List Eff) : List Nat :=
  effs.foldr (fun e acc => match e with | Eff.openStream c => c :: acc | _ => acc) []

/-- The encode operations of an effect trace. -/
def encodeCount (effs : List Eff) : Nat :=
  (effs.filter (fun e => e = Eff.encode)).length

/-- The spawned tasks (`go` statements) of an effect trace. -/
def spawnedTasks (effs : List Eff) : List Nat :=
  effs.foldr (fun e acc => match e with | Eff.spawn t => t :: acc | _ => acc) []

/-! ### Connection teardown: the stream-accept error branch of
`Server.handleConnection`, `src/unnamed/part_004` lines 171–180
(`src/pkg/server/server.go` lines 137–148 is the same order)

```go
for {
    stream, err := conn.AcceptStream(ctx)
    if err != nil {
        log.Println("stream accept error:", err)
        if s.OnDisc != nil {
            s.OnDisc(c, err)
        }
        s.conns.Delete(conn)
        return
    }
    ...
}
```

The teardown is a list of steps; each step pairs the event with the
registry contents in force while that event runs: the disconnect
callback (when set) is invoked first, with the registry still holding
the connection's entry, and only then is the entry deleted. -/

/-- The transition-to-Closing sequence of `handleConnection`: the events
of the error branch, each paired with the registry as the event runs. -/
def connTeardown {T : Type} (reg : List (Nat × T)) (hasOnDisc : Bool)
    (connId : Nat) : List (Eff × List (Nat × T)) :=
  (if hasOnDisc then [(Eff.invokeOnDisc connId, reg)] else [])
    ++ [(Eff.unregister connId, syncMapDelete reg connId)]

/-! ### Stream dispatch: `Server.handleStream`, `src/unnamed/part_004`
lines 186–203

```go
func (s *Server[T, M]) handleStream(stream *Stream, c T) {
    defer s.wg.Done()
    defer stream.Close()
    data, err := io.ReadAll(stream)
    if err != nil { log; return }
    var baseMsg Message
    if err := json.Unmarshal(data, &baseMsg); err != nil { log; return }
    msg := s.MessageFactory(&baseMsg)
    if s.OnMsg != nil { s.OnMsg(c, msg) }
}
```

`io.ReadAll` is modelled by its result (`readResult : Option String`,
`none` for a read error) and `json.Unmarshal` by
`decode : String → Option Msg`; the application `MessageFactory` is
applied inside the callback invocation and does not affect engine state.
The server-visible state a worker could touch is collected in
`LifeState`; the only state change `handleStream` makes is its own
termination (`defer s.wg.Done()`): it never touches the registry, the
owning connection's accept loop, or any other worker. -/

/-- Engine state visible to a stream worker: the client registry, the
liveness of the owning connection's stream-accept loop, and the ids of
the connection's active stream workers. -/
structure LifeState (T : Type) where
  reg : List (Nat × T)
  acceptLoopLive : Bool
  workers : List Nat
  deriving DecidableEq, Repr

/-- Function `Server.handleStream` (`src/unnamed/part_004` lines 186–203) run by
worker `self` on stream `streamId` of connection `connId`: returns the
state after the worker exits and the effects it performed. -/
def handleStream {T : Type} (self streamId connId : Nat)
    (readResult : Option String) (decode : String → Option Msg)
    (hasOnMsg : Bool) (st : LifeState T) : LifeState T × List Eff :=
  let stDone := { st with workers := st.workers.erase self }
  match readResult with
  | none => (stDone, [Eff.closeStream streamId])
  | some data =>
    match decode data with
    | none => (stDone, [Eff.closeStream streamId])
    | some m =>
      (stDone,
        (if hasOnMsg then [Eff.invokeOnMsg connId m] else [])
          ++ [Eff.closeStream streamId])

/-! ### Startup: `New` and `Server.Start`, `src/unnamed/part_004`
lines 79–117

`New` performs the three fallible binding steps
(`net.ResolveUDPAddr`, `net.ListenUDP`, `tr.Listen`) and propagates the
first failure to its caller; only on success does a `Server` value exist
on which `Start` can be called, and `Start` is what spawns the accept
loop and the tick loop.  `startServer` is the caller-side composite
`New` then `Start` (the spec's single `start()` operation). -/

/-- Outcomes of the three fallible binding steps in `New`
(`none` = failure). -/
structure NetEnv where
  resolveUDPAddr : Option Nat
  listenUDP : Option Nat
  quicListen : Option Nat
  deriving DecidableEq, Repr

/-- Function `New` (`src/unnamed/part_004` lines 79–106): each binding failure is
returned to the caller; on success the listener handle is held by the
returned server. -/
def New (env : NetEnv) : Except String Nat :=
  match env.resolveUDPAddr with
  | none => Except.error "resolve udp addr failed"
  | some _ =>
    match env.listenUDP with
    | none => Except.error "listen udp failed"
    | some _ =>
      match env.quicListen with
      | none => Except.error "quic listen failed"
      | some ln => Except.ok ln

/-- Function `Server.Start` (`src/unnamed/part_004` lines 108–117): spawns the
accept loop (task 0) and the tick loop (task 1). -/
def Start : List Eff :=
  [Eff.spawn 0, Eff.spawn 1]

/-- The caller-side composite `New` then `Start`: on a binding failure
the error is surfaced and `Start` is never reached. -/
def startServer (env : NetEnv) : Except String (Nat × List Eff) :=
  match New env with
  | Except.error e => Except.error e
  | Except.ok ln => Except.ok (ln, Start)

/-- The engine tasks running after a startup attempt: none when startup
failed, the spawned ones when it succeeded. -/
def runningTasks (r : Except String (Nat × List Eff)) : List Nat :=
  match r with
  | Except.error _ => []
  | Except.ok (_, effs) => spawnedTasks effs

/-! ### Single-recipient send: `Server.SendTo` and `Client.SendPacked`
from the `NewServer` variant (`src/pkg/server/client.go`)

```go
func (s *Server) SendTo(clientID string, v interface{}) error {
    s.clientsMutex.RLock()
    p, ok := s.clients[clientID]
    s.clientsMutex.RUnlock()
    if !ok { return errors.New("client not found") }
    return p.SendPacked(context.Background(), v)
}

func (p *Client) SendPacked(ctx context.Context, v interface{}) error {
    p.streamMtx.Lock(); defer p.streamMtx.Unlock()
    stream, err := p.Conn.OpenStreamSync(ctx)
    if err != nil { return err }
    defer stream.Close()
    b, err := msgpack.Marshal(v)
    if err != nil { return err }
    _, err = stream.Write(b)
    return err
}
```

The `clients map[string]*Client` registry is an association list from
client id to connection handle; per-connection transport outcomes come
from `behavior`. -/

/-- Method `Client.SendPacked`: open one stream on the client's connection,
encode, write, close (deferred).  Returns the effects and the error
result. -/
def SendPacked (encode : Msg → Option String) (b : ConnBehavior)
    (connId : Nat) (v : Msg) : List Eff × Option String :=
  if b.openOk then
    match encode v with
    | none => ([Eff.openStream connId, Eff.encode, Eff.closeStream connId],
               some "marshal failed")
    | some bytes =>
      ([Eff.openStream connId, Eff.encode, Eff.write connId bytes,
        Eff.closeStream connId],
       if b.writeOk then none else some "write failed")
  else
    ([Eff.openStream connId], some "open stream failed")

/-- Method `Server.SendTo`: registry lookup by client id; `client not found` if
absent, one `SendPacked` delivery to that client's connection if
present. -/
def SendTo (encode : Msg → Option String) (behavior : Nat → ConnBehavior)
    (clients : List (String × Nat)) (clientID : String) (v : Msg) :
    List Eff × Option String :=
  match goMapLookup clients clientID with
  | none => ([], some "client not found")
  | some conn => SendPacked encode (behavior conn) conn v

/-! ### Shutdown: `Server.Stop` and the `sync.WaitGroup` discipline,
`src/unnamed/part_004` lines 108–184

```go
func (s *Server[T, M]) Stop() {
    s.cancel()
    s.ln.Close()
    s.wg.Wait()
}
```

Every task the engine spawns is preceded by `s.wg.Add(1)` — the accept
loop and tick loop in `Start`, each `handleConnection` in `acceptLoop`,
each `handleStream` in `handleConnection` — and every task body begins
with `defer s.wg.Done()`.  `TaskSys` tracks the waitgroup counter and
the set of live tasks under exactly that discipline: a spawn increments
the counter as it creates a task, a task's exit decrements it.
`Stop`'s `wg.Wait()` unblocks exactly when the counter is zero.
`stopSignal` models the `cancel()` + `ln.Close()` part of `Stop`, both
of which are idempotent state changes. -/

/-- Waitgroup counter plus the live engine tasks, under the
`Add(1)`-before-`go` / `defer Done()` discipline of the code. -/
structure TaskSys where
  wgCounter : Nat
  live : List Nat
  nextId : Nat
  deriving DecidableEq, Repr

/-- The task-accounting steps the code can take: `spawn` is
`wg.Add(1); go f(...)`, `finish` is a task body returning through its
`defer wg.Done()`. -/
inductive TStep : TaskSys → TaskSys → Prop
  | spawn (s : TaskSys) :
      TStep s { wgCounter := s.wgCounter + 1, live := s.nextId :: s.live,
                nextId := s.nextId + 1 }
  | finish (s : TaskSys) (t : Nat) (h : t ∈ s.live) :
      TStep s { wgCounter := s.wgCounter - 1, live := s.live.erase t,
                nextId := s.nextId }

/-- States reachable from the freshly constructed server (counter 0, no
tasks). -/
inductive TReach : TaskSys → Prop
  | init : TReach ⟨0, [], 0⟩
  | step {s s' : TaskSys} : TReach s → TStep s s' → TReach s'

/-- Cancellation/listener state touched by `Stop` before `wg.Wait()`. -/
structure StopState where
  cancelled : Bool
  listenerClosed : Bool
  deriving DecidableEq, Repr

/-- The `s.cancel(); s.ln.Close()` part of `Stop`. -/
def stopSignal (_ : StopState) : StopState :=
  { cancelled := true, listenerClosed := true }

/-! ## Helper lemmas -/

theorem syncMapLoad_store_self {T : Type} (m : List (Nat × T)) (k : Nat) (v : T) :
    syncMapLoad (syncMapStore m k v) k = some v := by
  induction m with
  | nil => simp [syncMapStore, syncMapLoad]
  | cons e rest ih =>
    obtain ⟨k₀, v₀⟩ := e
    by_cases h : k₀ = k
    · simp [syncMapStore, syncMapLoad, h]
    · simp [syncMapStore, syncMapLoad, h, ih]

theorem syncMapLoad_delete_self {T : Type} (m : List (Nat × T)) (k : Nat) :
    syncMapLoad (syncMapDelete m k) k = none := by
  induction m with
  | nil => simp [syncMapDelete, syncMapLoad]
  | cons e rest ih =>
    obtain ⟨k₀, v₀⟩ := e
    by_cases h : k₀ = k
    · simp only [syncMapDelete, List.filter_cons, ne_eq, decide_not] at ih ⊢
      simp [h, ih]
    · simp only [syncMapDelete, List.filter_cons, ne_eq, decide_not] at ih ⊢
      simp [h, syncMapLoad, ih]

theorem goMapLookup_assign_self {V : Type} (m : List (String × V)) (k : String) (v : V) :
    goMapLookup (goMapAssign m k v) k = some v := by
  induction m with
  | nil => simp [goMapAssign, goMapLookup]
  | cons e rest ih =>
    obtain ⟨k₀, v₀⟩ := e
    by_cases h : k₀ = k
    · simp [goMapAssign, goMapLookup, h]
    · simp [goMapAssign, goMapLookup, h, ih]

theorem broadcastBody_continues (data : String) (e : Nat × ConnBehavior) :
    (broadcastBody data e).2 = true := by
  cases h : e.2.openOk <;> simp [broadcastBody, h]

theorem syncMapRange_broadcastBody_join {T : Type} (data : String)
    (conns : List (Nat × (T × ConnBehavior))) :
    syncMapRange (fun e => broadcastBody data (e.1, e.2.2)) conns
      = (conns.map (fun e => (broadcastBody data (e.1, e.2.2)).1)).flatten := by
  induction conns with
  | nil => simp [syncMapRange]
  | cons e rest ih =>
    simp only [syncMapRange, List.map_cons, List.flatten_cons]
    rw [broadcastBody_continues data (e.1, e.2.2)]
    simp [ih]

theorem openAttempts_append (a b : List Eff) :
    openAttempts (a ++ b) = openAttempts a ++ openAttempts b := by
  induction a with
  | nil => simp [openAttempts]
  | cons e rest ih =>
    cases e <;> simp [openAttempts, List.foldr] at ih ⊢ <;> simp [ih]

theorem spawnedTasks_append (a b : List Eff) :
    spawnedTasks (a ++ b) = spawnedTasks a ++ spawnedTasks b := by
  induction a with
  | nil => simp [spawnedTasks]
  | cons e rest ih =>
    cases e <;> simp [spawnedTasks, List.foldr] at ih ⊢ <;> simp [ih]

theorem encodeCount_append (a b : List Eff) :
    encodeCount (a ++ b) = encodeCount a + encodeCount b := by
  simp [encodeCount, List.filter_append]

theorem openAttempts_broadcastBody (data : String) (e : Nat × ConnBehavior) :
    openAttempts (broadcastBody data e).1 = [e.1] := by
  cases h : e.2.openOk <;> simp [broadcastBody, h, openAttempts]

theorem encodeCount_broadcastBody (data : String) (e : Nat × ConnBehavior) :
    encodeCount (broadcastBody data e).1 = 0 := by
  cases h : e.2.openOk <;> simp [broadcastBody, h, encodeCount]

theorem spawnedTasks_broadcastBody (data : String) (e : Nat × ConnBehavior) :
    spawnedTasks (broadcastBody data e).1 = [] := by
  cases h : e.2.openOk <;> simp [broadcastBody, h, spawnedTasks]

theorem openAttempts_range {T : Type} (data : String)
    (conns : List (Nat × (T × ConnBehavior))) :
    openAttempts (syncMapRange (fun e => broadcastBody data (e.1, e.2.2)) conns)
      = conns.map Prod.fst := by
  induction conns with
  | nil => simp [syncMapRange, openAttempts]
  | cons e rest ih =>
    simp only [syncMapRange]
    rw [broadcastBody_continues data (e.1, e.2.2)]
    simp [openAttempts_append, openAttempts_broadcastBody, ih]

theorem encodeCount_range {T : Type} (data : String)
    (conns : List (Nat × (T × ConnBehavior))) :
    encodeCount (syncMapRange (fun e => broadcastBody data (e.1, e.2.2)) conns) = 0 := by
  induction conns with
  | nil => simp [syncMapRange, encodeCount]
  | cons e rest ih =>
    simp only [syncMapRange]
    rw [broadcastBody_continues data (e.1, e.2.2)]
    simp only [if_true, encodeCount_append, encodeCount_broadcastBody, ih]

theorem spawnedTasks_range {T : Type} (data : String)
    (conns : List (Nat × (T × ConnBehavior))) :
    spawnedTasks (syncMapRange (fun e => broadcastBody data (e.1, e.2.2)) conns) = [] := by
  induction conns with
  | nil => simp [syncMapRange, spawnedTasks]
  | cons e rest ih =>
    simp only [syncMapRange]
    rw [broadcastBody_continues data (e.1, e.2.2)]
    simp only [if_true, spawnedTasks_append, spawnedTasks_broadcastBody, ih,
      List.nil_append]

theorem openAttempts_sendPacked (encode : Msg → Option String) (b : ConnBehavior)
    (connId : Nat) (v : Msg) :
    openAttempts (SendPacked encode b connId v).1 = [connId] := by
  cases hb : b.openOk with
  | false => simp [SendPacked, hb, openAttempts]
  | true => cases he : encode v <;> simp [SendPacked, hb, he, openAttempts]

theorem treach_counter_eq_length (s : TaskSys) (h : TReach s) :
    s.wgCounter = s.live.length := by
  induction h with
  | init => rfl
  | step hr hs ih =>
    cases hs with
    | spawn => simp [ih]
    | finish t ht => simp [List.length_erase_of_mem ht, ih]

/-! ## Claim theorems -/

/-- C1 counterexample.  In `handleConnection`'s teardown
(`src/unnamed/part_004` lines 171–180) the disconnect callback is
invoked FIRST: the first teardown step is the callback invocation, and
the registry in force at that moment still contains the connection's
entry (here `syncMapLoad` still finds client `7` under connection `0`),
contradicting the claim that the entry is removed before the callback
is invoked. -/
theorem connTeardown_callback_sees_entry :
    (connTeardown [(0, (7 : Nat))] true 0).head?
        = some (Eff.invokeOnDisc 0, [(0, 7)])
    ∧ syncMapLoad [(0, (7 : Nat))] 0 = some 7 := by
  exact ⟨rfl, rfl⟩

/-- C1 (amended): on a connection's transition to Closing the
disconnect callback is invoked first, while the registry still contains
the entry — the teardown's first step when the callback is set is the
invocation, with the untouched registry in force — and the entry is
removed only afterwards, as the final teardown step, after which the
registry no longer contains it. -/
theorem connTeardown_unregisters_after_callback {T : Type}
    (reg : List (Nat × T)) (hasOnDisc : Bool) (connId : Nat) :
    (connTeardown reg hasOnDisc connId).getLast?
        = some (Eff.unregister connId, syncMapDelete reg connId)
    ∧ syncMapLoad (syncMapDelete reg connId) connId = none
    ∧ (connTeardown reg true connId).head?
        = some (Eff.invokeOnDisc connId, reg) := by
  refine ⟨?_, syncMapLoad_delete_self reg connId, rfl⟩
  cases hasOnDisc <;> rfl

/-- C2 counterexample.  Registration is `s.conns.Store(conn, c)`: a
second register of an identity already present (connection `0`, old
client `10`, new client `20`) does not fail — `registerClient` is a
total operation with no error result — and it replaces the existing
entry, contradicting the claim that it fails with `DuplicateConnection`
and leaves the entry in place. -/
theorem registerClient_replaces_duplicate :
    registerClient [(0, (10 : Nat))] 0 20 = [(0, 20)]
    ∧ syncMapLoad (registerClient [(0, (10 : Nat))] 0 20) 0 = some 20 := by
  exact ⟨rfl, rfl⟩

/-- C2 (amended): a second register of an identity already present in
the registry cannot fail (the operation is total) and silently replaces
the existing entry: last write wins. -/
theorem registerClient_duplicate_last_write_wins {T : Type}
    (reg : List (Nat × T)) (k : Nat) (v₁ v₂ : T) :
    syncMapLoad (registerClient (registerClient reg k v₁) k v₂) k = some v₂ := by
  simp [registerClient, syncMapLoad_store_self]

/-- C3: with `K` clients registered, `Broadcast` encodes the message
exactly once, makes exactly one delivery attempt (stream open, plus the
write when the open succeeds) per registered client — `K` in all — and
the whole trace is the concatenation of per-client segments each
depending only on that client's own entry, so one client's failed open
or write cannot prevent any other client's attempt. -/
theorem broadcast_attempts_all_clients {T : Type} (encode : Msg → Option String)
    (msg : Msg) (data : String) (conns : List (Nat × (T × ConnBehavior)))
    (h : encode msg = some data) :
    encodeCount (Broadcast encode msg conns) = 1
    ∧ openAttempts (Broadcast encode msg conns) = conns.map Prod.fst
    ∧ Broadcast encode msg conns
        = Eff.encode :: (conns.map (fun e => (broadcastBody data (e.1, e.2.2)).1)).flatten
    ∧ ∀ e ∈ conns, e.2.2.openOk = true → Eff.write e.1 data ∈ Broadcast encode msg conns := by
  have hb : Broadcast encode msg conns
      = Eff.encode :: syncMapRange (fun e => broadcastBody data (e.1, e.2.2)) conns := by
    simp [Broadcast, h]
  refine ⟨?_, ?_, ?_, ?_⟩
  · rw [hb]
    have : encodeCount (Eff.encode
        :: syncMapRange (fun e => broadcastBody data (e.1, e.2.2)) conns)
        = encodeCount (syncMapRange (fun e => broadcastBody data (e.1, e.2.2)) conns) + 1 := by
      simp [encodeCount, List.filter_cons]
    rw [this, encodeCount_range]
  · rw [hb]
    have : openAttempts (Eff.encode
        :: syncMapRange (fun e => broadcastBody data (e.1, e.2.2)) conns)
        = openAttempts (syncMapRange (fun e => broadcastBody data (e.1, e.2.2)) conns) := rfl
    rw [this, openAttempts_range]
  · rw [hb, syncMapRange_broadcastBody_join]
  · intro e he hopen
    rw [hb, syncMapRange_broadcastBody_join]
    refine List.mem_cons_of_mem _ (List.mem_flatten.mpr ?_)
    refine ⟨(broadcastBody data (e.1, e.2.2)).1, List.mem_map_of_mem _ he, ?_⟩
    simp [broadcastBody, hopen]

/-- C3 witness: two registered clients, the second one's stream open
failing; the encode happens once and both clients get their attempt. -/
theorem broadcast_attempts_all_clients_witness :
    encodeCount (Broadcast (fun m => some m.data) ⟨"t", "d"⟩
        ([(0, (0, ⟨true, true⟩)), (1, (0, ⟨false, true⟩))] : List (Nat × (Nat × ConnBehavior)))) = 1
    ∧ openAttempts (Broadcast (fun m => some m.data) ⟨"t", "d"⟩
        ([(0, (0, ⟨true, true⟩)), (1, (0, ⟨false, true⟩))] : List (Nat × (Nat × ConnBehavior))))
        = ([(0, (0, ⟨true, true⟩)), (1, (0, ⟨false, true⟩))] : List (Nat × (Nat × ConnBehavior))).map Prod.fst
    ∧ Broadcast (fun m => some m.data) ⟨"t", "d"⟩
        ([(0, (0, ⟨true, true⟩)), (1, (0, ⟨false, true⟩))] : List (Nat × (Nat × ConnBehavior)))
        = Eff.encode :: (([(0, (0, ⟨true, true⟩)), (1, (0, ⟨false, true⟩))] : List (Nat × (Nat × ConnBehavior))).map
            (fun e => (broadcastBody "d" (e.1, e.2.2)).1)).flatten
    ∧ ∀ e ∈ ([(0, (0, ⟨true, true⟩)), (1, (0, ⟨false, true⟩))] : List (Nat × (Nat × ConnBehavior))),
        e.2.2.openOk = true → Eff.write e.1 "d" ∈ Broadcast (fun m => some m.data) ⟨"t", "d"⟩
          ([(0, (0, ⟨true, true⟩)), (1, (0, ⟨false, true⟩))] : List (Nat × (Nat × ConnBehavior))) :=
  broadcast_attempts_all_clients (fun m => some m.data) ⟨"t", "d"⟩ "d"
    ([(0, (0, ⟨true, true⟩)), (1, (0, ⟨false, true⟩))] : List (Nat × (Nat × ConnBehavior))) rfl

/-- C4 counterexample.  With one registered all-ok client, the
`Broadcast` call itself performs the write to that client — the write
effect is in the trace of effects the call runs before returning — and
it spawns no task at all (`Broadcast` contains no `go` statement), so
per-recipient deliveries are not independent concurrent units and the
call does wait for (indeed, itself performs) every delivery,
contradicting the fire-and-forget claim. -/
theorem broadcast_delivers_inline_no_spawn :
    spawnedTasks (Broadcast (fun m => some m.data) ⟨"t", "d"⟩
        ([(0, (0, ⟨true, true⟩))] : List (Nat × (Nat × ConnBehavior)))) = []
    ∧ Eff.write 0 "d" ∈ Broadcast (fun m => some m.data) ⟨"t", "d"⟩
        ([(0, (0, ⟨true, true⟩))] : List (Nat × (Nat × ConnBehavior))) := by
  constructor
  · rfl
  · simp [Broadcast, syncMapRange, broadcastBody]

/-- C4 (amended): `Broadcast` performs every per-recipient delivery
sequentially within the call itself: it spawns no concurrent task, and
by the time it returns it has itself performed one delivery attempt per
registered client (all of them when encoding succeeded, none on encode
failure). -/
theorem broadcast_sequential_in_call {T : Type} (encode : Msg → Option String)
    (msg : Msg) (conns : List (Nat × (T × ConnBehavior))) :
    spawnedTasks (Broadcast encode msg conns) = []
    ∧ openAttempts (Broadcast encode msg conns)
        = (match encode msg with
           | none => []
           | some _ => conns.map Prod.fst) := by
  cases h : encode msg with
  | none =>
    constructor
    · simp [Broadcast, h, spawnedTasks]
    · simp [Broadcast, h, openAttempts]
  | some data =>
    constructor
    · have hb : Broadcast encode msg conns
          = Eff.encode :: syncMapRange (fun e => broadcastBody data (e.1, e.2.2)) conns := by
        simp [Broadcast, h]
      rw [hb]
      have : spawnedTasks (Eff.encode
          :: syncMapRange (fun e => broadcastBody data (e.1, e.2.2)) conns)
          = spawnedTasks (syncMapRange (fun e => broadcastBody data (e.1, e.2.2)) conns) := rfl
      rw [this, spawnedTasks_range]
    · have hb : Broadcast encode msg conns
          = Eff.encode :: syncMapRange (fun e => broadcastBody data (e.1, e.2.2)) conns := by
        simp [Broadcast, h]
      rw [hb]
      have : openAttempts (Eff.encode
          :: syncMapRange (fun e => broadcastBody data (e.1, e.2.2)) conns)
          = openAttempts (syncMapRange (fun e => broadcastBody data (e.1, e.2.2)) conns) := rfl
      rw [this, openAttempts_range]

/-- C5: a stream worker whose read fails, or whose decode fails, only
closes and discards its own stream: its effect trace is exactly the
stream close (in particular no message callback invocation), the
registry and the owning connection's accept loop are untouched, and the
only worker that terminates is this one (`workers` loses exactly
`self`). -/
theorem handleStream_failure_isolated {T : Type} (self streamId connId : Nat)
    (readResult : Option String) (decode : String → Option Msg)
    (hasOnMsg : Bool) (st : LifeState T)
    (h : readResult = none
      ∨ ∃ data, readResult = some data ∧ decode data = none) :
    (handleStream self streamId connId readResult decode hasOnMsg st).2
        = [Eff.closeStream streamId]
    ∧ (handleStream self streamId connId readResult decode hasOnMsg st).1.reg = st.reg
    ∧ (handleStream self streamId connId readResult decode hasOnMsg st).1.acceptLoopLive
        = st.acceptLoopLive
    ∧ (handleStream self streamId connId readResult decode hasOnMsg st).1.workers
        = st.workers.erase self := by
  rcases h with h | ⟨data, hr, hd⟩
  · subst h
    exact ⟨rfl, rfl, rfl, rfl⟩
  · subst hr
    simp [handleStream, hd]

/-- C5 witness: a stream whose bytes fail to decode; worker `5` closes
stream `3`, fires no callback, and leaves registry, accept loop and
worker `9` alone. -/
theorem handleStream_failure_isolated_witness :
    (handleStream 5 3 0 (some "x") (fun _ => none) true
        (⟨[(0, (1 : Nat))], true, [5, 9]⟩ : LifeState Nat)).2
        = [Eff.closeStream 3]
    ∧ (handleStream 5 3 0 (some "x") (fun _ => none) true
        (⟨[(0, (1 : Nat))], true, [5, 9]⟩ : LifeState Nat)).1.reg = [(0, 1)]
    ∧ (handleStream 5 3 0 (some "x") (fun _ => none) true
        (⟨[(0, (1 : Nat))], true, [5, 9]⟩ : LifeState Nat)).1.acceptLoopLive = true
    ∧ (handleStream 5 3 0 (some "x") (fun _ => none) true
        (⟨[(0, (1 : Nat))], true, [5, 9]⟩ : LifeState Nat)).1.workers = [5, 9].erase 5 :=
  handleStream_failure_isolated 5 3 0 (some "x") (fun _ => none) true
    ⟨[(0, (1 : Nat))], true, [5, 9]⟩ (Or.inr ⟨"x", rfl, rfl⟩)

/-- C6: under the waitgroup discipline of the code (`wg.Add(1)` before
every `go`, `defer wg.Done()` first in every task body), in any
reachable state in which `Stop`'s `wg.Wait()` has unblocked (counter
zero) no engine task is still live; and the cancellation/listener-close
part of `Stop` is idempotent, so a repeated `Stop` is safe. -/
theorem stop_idempotent_and_joins_all (s : TaskSys) (c : StopState)
    (h : TReach s) (h0 : s.wgCounter = 0) :
    s.live = [] ∧ stopSignal (stopSignal c) = stopSignal c := by
  constructor
  · have hlen := treach_counter_eq_length s h
    rw [h0] at hlen
    exact List.length_eq_zero.mp hlen.symm
  · rfl

/-- C6 witness: the freshly constructed server (counter `0`, no tasks)
with a never-signalled stop state. -/
theorem stop_idempotent_and_joins_all_witness :
    (⟨0, [], 0⟩ : TaskSys).live = []
    ∧ stopSignal (stopSignal ⟨false, false⟩) = stopSignal ⟨false, false⟩ :=
  stop_idempotent_and_joins_all ⟨0, [], 0⟩ ⟨false, false⟩ TReach.init rfl

/-- C7: if any of the three binding steps (UDP address resolution, UDP
bind, QUIC listen) fails, the combined `New`-then-`Start` startup
surfaces that error to the caller and the server never reaches the
running state: no accept loop and no tick loop task exists. -/
theorem startup_failure_surfaced (env : NetEnv)
    (h : env.resolveUDPAddr = none ∨ env.listenUDP = none ∨ env.quicListen = none) :
    (∃ e, startServer env = Except.error e)
    ∧ runningTasks (startServer env) = [] := by
  have herr : ∃ e, New env = Except.error e := by
    cases hr : env.resolveUDPAddr with
    | none => exact ⟨"resolve udp addr failed", by simp [New, hr]⟩
    | some a =>
      cases hl : env.listenUDP with
      | none => exact ⟨"listen udp failed", by simp [New, hr, hl]⟩
      | some b =>
        cases hq : env.quicListen with
        | none => exact ⟨"quic listen failed", by simp [New, hr, hl, hq]⟩
        | some q => simp_all
  obtain ⟨e, he⟩ := herr
  exact ⟨⟨e, by simp [startServer, he]⟩, by simp [runningTasks, startServer, he]⟩

/-- C7 witness: UDP address resolution fails; the error is surfaced and
no engine task runs. -/
theorem startup_failure_surfaced_witness :
    (∃ e, startServer ⟨none, some 0, some 0⟩ = Except.error e)
    ∧ runningTasks (startServer ⟨none, some 0, some 0⟩) = [] :=
  startup_failure_surfaced ⟨none, some 0, some 0⟩ (Or.inl rfl)

/-- C8: `SendTo` either finds no entry for the identifier and fails with
the `client not found` error having attempted nothing, or finds the
client's connection and makes exactly one delivery attempt (one stream
open) on it. -/
theorem sendTo_notFound_or_single_delivery (encode : Msg → Option String)
    (behavior : Nat → ConnBehavior) (clients : List (String × Nat))
    (clientID : String) (v : Msg) :
    (goMapLookup clients clientID = none
      ∧ SendTo encode behavior clients clientID v = ([], some "client not found"))
    ∨ (∃ conn, goMapLookup clients clientID = some conn
      ∧ openAttempts (SendTo encode behavior clients clientID v).1 = [conn]) := by
  cases hl : goMapLookup clients clientID with
  | none => exact Or.inl ⟨rfl, by simp [SendTo, hl]⟩
  | some conn =>
    refine Or.inr ⟨conn, rfl, ?_⟩
    simp [SendTo, hl, openAttempts_sendPacked]

/-- C9: when encoding the message fails, `Broadcast` returns having done
nothing but the failed encode: no stream is opened and nothing is
written to any connection. -/
theorem broadcast_encode_failure_no_delivery {T : Type}
    (encode : Msg → Option String) (msg : Msg)
    (conns : List (Nat × (T × ConnBehavior))) (h : encode msg = none) :
    Broadcast encode msg conns = [Eff.encode]
    ∧ openAttempts (Broadcast encode msg conns) = [] := by
  refine ⟨?_, ?_⟩ <;> simp [Broadcast, h, openAttempts]

/-- C9 witness: an always-failing encoder with one registered client. -/
theorem broadcast_encode_failure_no_delivery_witness :
    Broadcast (fun _ => (none : Option String)) ⟨"t", "d"⟩
        ([(0, (0, ⟨true, true⟩))] : List (Nat × (Nat × ConnBehavior))) = [Eff.encode]
    ∧ openAttempts (Broadcast (fun _ => (none : Option String)) ⟨"t", "d"⟩
        ([(0, (0, ⟨true, true⟩))] : List (Nat × (Nat × ConnBehavior)))) = [] :=
  broadcast_encode_failure_no_delivery (fun _ => none) ⟨"t", "d"⟩
    ([(0, (0, ⟨true, true⟩))] : List (Nat × (Nat × ConnBehavior))) rfl

/-- C10: `NewClient` always yields the empty identifier and a non-nil
empty metadata map; and `SetMeta` on any client — including one whose
map is nil — allocates the map when needed and stores the binding, so
the stored map `GetMeta` returns resolves the key to the value. -/
theorem newClient_and_setMeta_meta (V : Type) (conn : Nat) (c : Client V)
    (k : String) (v : V) :
    (NewClient V conn).ID = ""
    ∧ (NewClient V conn).Meta = some []
    ∧ (c.SetMeta k v).Meta ≠ none
    ∧ (∃ m, (c.SetMeta k v).GetMeta = some m ∧ goMapLookup m k = some v) := by
  refine ⟨rfl, rfl, ?_, ?_⟩
  · cases hm : c.Meta <;> simp [Client.SetMeta, hm]
  · cases hm : c.Meta with
    | none =>
      exact ⟨_, by simp [Client.SetMeta, Client.GetMeta, hm],
        goMapLookup_assign_self [] k v⟩
    | some m =>
      exact ⟨_, by simp [Client.SetMeta, Client.GetMeta, hm],
        goMapLookup_assign_self m k v⟩

end GoMP
